import Mathlib

/-!
Shallow embedding of the `pixelutil-image` core (Rust), 64-bit target.

The embedding covers:
* `src/index.rs`  — the `ImageAxisIndex` trait implementations for every
  supported numeric type (per-type conversion and clamping to a `u32` axis
  index);
* `src/coordinate.rs` — the `ImageCoordinate` implementations for pairs and
  two-element arrays;
* `src/view.rs` — the `ExtendedImageView` operations `edges`,
  `within_bounds`, `get_pixel_at`, `get_pixel_clamped` over an abstract
  raster providing `(width, height)` and an unchecked fetch;
* `src/lib.rs` — the raw `i32` convenience functions `in_bounds`,
  `get_pixel`, `clamp_pixel`.

Machine integers are modelled as `Nat` / `Int` with explicit `% 2 ^ 32`
wrapping where a Rust `as` cast may wrap.  Operations whose Rust execution
may be undefined (an `unsafe` fetch with an out-of-range index, a
`to_int_unchecked` call whose truncated value does not fit the target type,
an arithmetic overflow panic, a `clamp` panic when `min > max`) are modelled
by `RustResult.ub`; normal returns are `RustResult.ok`.
-/

/-- Outcome of running a Rust expression: a normal value, or undefined
behaviour / a guaranteed panic (`ub`). -/
inductive RustResult (α : Type) where
  | ok (val : α)
  | ub
deriving DecidableEq, Repr

/-- `u32::MAX`. -/
def u32Max : ℕ := 4294967295

/-- Model of an `f32` / `f64` value.  Only the observations the library
makes are relevant: finiteness, NaN-ness, the sign bit, and the value
truncated toward zero.  A finite float is a sign bit together with a
non-negative rational magnitude; the model is a superset of the real
floating-point values, which suffices because the code does no float
arithmetic. -/
inductive Fp where
  | nan
  | inf (neg : Bool)
  | finite (neg : Bool) (mag : ℚ)
deriving DecidableEq, Repr

/-- Rust `f32::is_finite` / `f64::is_finite`. -/
def Fp.is_finite : Fp → Bool
  | .finite _ _ => true
  | _ => false

/-- Rust `is_nan`. -/
def Fp.is_nan : Fp → Bool
  | .nan => true
  | _ => false

/-- Rust `is_sign_positive` (sign-bit test; the NaN case is never reached
by the embedded code, which always tests `is_finite` / `is_nan` first). -/
def Fp.is_sign_positive : Fp → Bool
  | .nan => true
  | .inf n => !n
  | .finite n _ => !n

/-- Rust `self.to_int_unchecked::<u32>()`: defined (`some`) exactly when the
value truncated toward zero is representable in `u32`; `none` models the
undefined behaviour of an out-of-range call.  Truncation toward zero of a
finite value with sign `neg` and magnitude `mag` is `±⌊mag⌋`. -/
def Fp.toIntUncheckedU32 : Fp → Option ℕ
  | .finite neg mag =>
    let t : ℤ := if neg then -mag.floor else mag.floor
    if 0 ≤ t ∧ t ≤ (u32Max : ℤ) then some t.toNat else none
  | _ => none

/-! Per-type `ImageAxisIndex` implementations from `src/index.rs`,
64-bit target (`impl_pixel_index!` expansions):
* `u32` — identity conversion, `min` clamp;
* `unsigned inbound` (`u8`, `u16`) — `as u32` widening;
* `unsigned` wide (`usize`, `u128`) — `u32::try_from`, and the clamp
  `u32::try_from(self).ok().unwrap_or(max)`;
* `signed inbound` (`i8`, `i16`, `i32`) — `u32::try_from`, clamp
  `(self.max(0) as u32).min(max)`;
* `signed` wide (`isize`, `i64`, `i128`) — `u32::try_from`, clamp
  `(self.max(0).min(max as T)) as u32`;
* `float` (`f32`, `f64`) — guarded `to_int_unchecked::<u32>`. -/

/-- `impl ImageAxisIndex for u32`: `to_image_axis_index` is `Some(self)`. -/
def u32_to_image_axis_index (v : ℕ) : Option ℕ := some v

/-- `impl ImageAxisIndex for u32`: `clamp_image_axis_index` is `self.min(max)`. -/
def u32_clamp_image_axis_index (v mx : ℕ) : ℕ := min v mx

/-- `unsigned inbound` (`u8`, `u16`): `Some(self as u32)`. -/
def unsigned_inbound_to_image_axis_index (v : ℕ) : Option ℕ := some (v % 2 ^ 32)

/-- `unsigned inbound` (`u8`, `u16`): `(self as u32).min(max)`. -/
def unsigned_inbound_clamp_image_axis_index (v mx : ℕ) : ℕ := min (v % 2 ^ 32) mx

/-- `unsigned` wide (`usize`, `u128`): `u32::try_from(self).ok()`. -/
def unsigned_wide_to_image_axis_index (v : ℕ) : Option ℕ :=
  if v ≤ u32Max then some v else none

/-- `unsigned` wide (`usize`, `u128`):
`u32::try_from(self).ok().unwrap_or(max)` — note that when the conversion
succeeds the value is returned as is, without `.min(max)`. -/
def unsigned_wide_clamp_image_axis_index (v mx : ℕ) : ℕ :=
  if v ≤ u32Max then v else mx

/-- Signed types (`try_from` arm): `u32::try_from(self).ok()`, which succeeds
exactly when `0 ≤ self ≤ u32::MAX`. -/
def signed_to_image_axis_index (v : ℤ) : Option ℕ :=
  if 0 ≤ v ∧ v ≤ (u32Max : ℤ) then some v.toNat else none

/-- `signed inbound` (`i8`, `i16`, `i32`): `(self.max(0) as u32).min(max)`;
the `as u32` cast wraps modulo `2 ^ 32`. -/
def signed_inbound_clamp_image_axis_index (v : ℤ) (mx : ℕ) : ℕ :=
  min ((max v 0).toNat % 2 ^ 32) mx

/-- `signed` wide (`isize`, `i64`, `i128`):
`(self.max(0).min(max as T)) as u32`. -/
def signed_wide_clamp_image_axis_index (v : ℤ) (mx : ℕ) : ℕ :=
  (min (max v 0) (mx : ℤ)).toNat % 2 ^ 32

/-- `impl ImageAxisIndex for f32 / f64`:
`(self.is_finite() && self.is_sign_positive()).then(|| unsafe { self.to_int_unchecked::<u32>() })`.
The call is undefined behaviour when the truncated value does not fit `u32`. -/
def float_to_image_axis_index (v : Fp) : RustResult (Option ℕ) :=
  if v.is_finite && v.is_sign_positive then
    match v.toIntUncheckedU32 with
    | some n => .ok (some n)
    | none => .ub
  else
    .ok none

/-- `impl ImageAxisIndex for f32 / f64`, `clamp_image_axis_index`:
finite values go through `to_int_unchecked::<u32>().min(max)` when
sign-positive (undefined behaviour when the truncation does not fit `u32`)
and `0` otherwise; infinities give `max` / `0` by sign; NaN gives `0`. -/
def float_clamp_image_axis_index (v : Fp) (mx : ℕ) : RustResult ℕ :=
  if v.is_finite then
    if v.is_sign_positive then
      match v.toIntUncheckedU32 with
      | some n => .ok (min n mx)
      | none => .ub
    else .ok 0
  else if !v.is_nan then
    .ok (if v.is_sign_positive then mx else 0)
  else
    .ok 0

/-- The closed set of numeric types implementing `ImageAxisIndex`
(64-bit target), each carrying a value of the corresponding Rust type. -/
inductive Scalar where
  | u8 (v : ℕ)
  | u16 (v : ℕ)
  | u32 (v : ℕ)
  | usize (v : ℕ)
  | u128 (v : ℕ)
  | i8 (v : ℤ)
  | i16 (v : ℤ)
  | i32 (v : ℤ)
  | isize (v : ℤ)
  | i64 (v : ℤ)
  | i128 (v : ℤ)
  | f32 (v : Fp)
  | f64 (v : Fp)
deriving DecidableEq, Repr

/-- Range well-formedness: the carried value is representable in the Rust
type (for floats, the magnitude is non-negative). -/
def Scalar.wf : Scalar → Prop
  | .u8 v => v < 2 ^ 8
  | .u16 v => v < 2 ^ 16
  | .u32 v => v < 2 ^ 32
  | .usize v => v < 2 ^ 64
  | .u128 v => v < 2 ^ 128
  | .i8 v => -(2 ^ 7) ≤ v ∧ v < 2 ^ 7
  | .i16 v => -(2 ^ 15) ≤ v ∧ v < 2 ^ 15
  | .i32 v => -(2 ^ 31) ≤ v ∧ v < 2 ^ 31
  | .isize v => -(2 ^ 63) ≤ v ∧ v < 2 ^ 63
  | .i64 v => -(2 ^ 63) ≤ v ∧ v < 2 ^ 63
  | .i128 v => -(2 ^ 127) ≤ v ∧ v < 2 ^ 127
  | .f32 f => match f with | .finite _ m => 0 ≤ m | _ => True
  | .f64 f => match f with | .finite _ m => 0 ≤ m | _ => True

/-- The carried integer of a signed scalar, `none` for the other types. -/
def Scalar.signedVal : Scalar → Option ℤ
  | .i8 v | .i16 v | .i32 v | .isize v | .i64 v | .i128 v => some v
  | _ => none

/-- Trait dispatch of `to_image_axis_index` over the supported types
(64-bit target of `src/index.rs`). -/
def Scalar.to_image_axis_index : Scalar → RustResult (Option ℕ)
  | .u8 v | .u16 v => .ok (unsigned_inbound_to_image_axis_index v)
  | .u32 v => .ok (u32_to_image_axis_index v)
  | .usize v | .u128 v => .ok (unsigned_wide_to_image_axis_index v)
  | .i8 v | .i16 v | .i32 v | .isize v | .i64 v | .i128 v =>
    .ok (signed_to_image_axis_index v)
  | .f32 f | .f64 f => float_to_image_axis_index f

/-- Trait dispatch of `clamp_image_axis_index` over the supported types
(64-bit target of `src/index.rs`). -/
def Scalar.clamp_image_axis_index : Scalar → ℕ → RustResult ℕ
  | .u8 v, mx | .u16 v, mx => .ok (unsigned_inbound_clamp_image_axis_index v mx)
  | .u32 v, mx => .ok (u32_clamp_image_axis_index v mx)
  | .usize v, mx | .u128 v, mx => .ok (unsigned_wide_clamp_image_axis_index v mx)
  | .i8 v, mx | .i16 v, mx | .i32 v, mx => .ok (signed_inbound_clamp_image_axis_index v mx)
  | .isize v, mx | .i64 v, mx | .i128 v, mx => .ok (signed_wide_clamp_image_axis_index v mx)
  | .f32 f, mx | .f64 f, mx => float_clamp_image_axis_index f mx

/-- `Option::zip` applied under `RustResult`: both axis conversions are
evaluated, so undefined behaviour in either propagates. -/
def zipIdx : RustResult (Option ℕ) → RustResult (Option ℕ) → RustResult (Option (ℕ × ℕ))
  | .ub, _ => .ub
  | .ok _, .ub => .ub
  | .ok a, .ok b =>
    .ok (match a, b with
      | some x, some y => some (x, y)
      | _, _ => none)

/-- `impl ImageCoordinate for (T, T)`, `image_coordinate`:
`self.0.to_image_axis_index().zip(self.1.to_image_axis_index())`. -/
def tuple_image_coordinate (c : Scalar × Scalar) : RustResult (Option (ℕ × ℕ)) :=
  zipIdx c.1.to_image_axis_index c.2.to_image_axis_index

/-- `impl ImageCoordinate for (T, T)`, `image_coordinate_clamped`:
`(self.0.clamp_image_axis_index(right), self.1.clamp_image_axis_index(bottom))`. -/
def tuple_image_coordinate_clamped (c : Scalar × Scalar) (right bottom : ℕ) :
    RustResult (ℕ × ℕ) :=
  match c.1.clamp_image_axis_index right, c.2.clamp_image_axis_index bottom with
  | .ok x, .ok y => .ok (x, y)
  | _, _ => .ub

/-- `impl ImageCoordinate for [T; 2]`, `image_coordinate`: the array is a
total map from positions `0` and `1`; `get_unchecked(0)` / `get_unchecked(1)`
are always in range on a `[T; 2]`. -/
def array_image_coordinate (c : Fin 2 → Scalar) : RustResult (Option (ℕ × ℕ)) :=
  zipIdx (c 0).to_image_axis_index (c 1).to_image_axis_index

/-- `impl ImageCoordinate for [T; 2]`, `image_coordinate_clamped`. -/
def array_image_coordinate_clamped (c : Fin 2 → Scalar) (right bottom : ℕ) :
    RustResult (ℕ × ℕ) :=
  match (c 0).clamp_image_axis_index right, (c 1).clamp_image_axis_index bottom with
  | .ok x, .ok y => .ok (x, y)
  | _, _ => .ub

/-- The external raster collaborator (spec §6): an extent and a pixel at
every position.  Only `width`, `height` and the unchecked fetch are
consumed by the core. -/
structure Raster (P : Type) where
  width : ℕ
  height : ℕ
  pix : ℕ → ℕ → P

/-- The raster's `unsafe_get_pixel` (spec §6 `unchecked_fetch`): defined only
when the index is in range; out of range is undefined behaviour. -/
def uncheckedFetch {P : Type} (img : Raster P) (x y : ℕ) : RustResult P :=
  if x < img.width ∧ y < img.height then .ok (img.pix x y) else .ub

/-- `GenericImageView::in_bounds` of the image crate:
`x < width && y < height`. -/
def gv_in_bounds {P : Type} (img : Raster P) (x y : ℕ) : Bool :=
  decide (x < img.width) && decide (y < img.height)

/-- `ExtendedImageView::edges`: `(width - 1, height - 1)` in `u32`
arithmetic; on an empty raster the subtraction overflows (a panic in debug
builds), modelled as `ub`. -/
def edges {P : Type} (img : Raster P) : RustResult (ℕ × ℕ) :=
  if img.width = 0 ∨ img.height = 0 then .ub
  else .ok (img.width - 1, img.height - 1)

/-- `ExtendedImageView::within_bounds` for a tuple coordinate:
`coords.image_coordinate().map(|(x, y)| self.in_bounds(x, y)).unwrap_or(false)`. -/
def within_bounds {P : Type} (img : Raster P) (a b : Scalar) : RustResult Bool :=
  match tuple_image_coordinate (a, b) with
  | .ub => .ub
  | .ok none => .ok false
  | .ok (some (x, y)) => .ok (gv_in_bounds img x y)

/-- `ExtendedImageView::get_pixel_at` for a tuple coordinate:
`coords.image_coordinate().filter(|(x, y)| self.in_bounds(*x, *y)).map(|(x, y)| unsafe { self.unsafe_get_pixel(x, y) })`. -/
def get_pixel_at {P : Type} (img : Raster P) (a b : Scalar) : RustResult (Option P) :=
  match tuple_image_coordinate (a, b) with
  | .ub => .ub
  | .ok none => .ok none
  | .ok (some (x, y)) =>
    if gv_in_bounds img x y then
      match uncheckedFetch img x y with
      | .ok p => .ok (some p)
      | .ub => .ub
    else .ok none

/-- `ExtendedImageView::get_pixel_clamped` for a tuple coordinate:
computes `edges`, clamps the coordinate against them and fetches
unconditionally. -/
def get_pixel_clamped {P : Type} (img : Raster P) (a b : Scalar) : RustResult P :=
  match edges img with
  | .ub => .ub
  | .ok (r, bt) =>
    match tuple_image_coordinate_clamped (a, b) r bt with
    | .ub => .ub
    | .ok (x, y) => uncheckedFetch img x y

/-- Rust `w as i32` for a `u32` value `w`: two's-complement reinterpretation. -/
def u32_as_i32 (w : ℕ) : ℤ :=
  if w % 2 ^ 32 < 2 ^ 31 then (w % 2 ^ 32 : ℤ) else (w % 2 ^ 32 : ℤ) - 2 ^ 32

/-- `src/lib.rs` `in_bounds`:
`x >= 0 && y >= 0 && x < image.width() as i32 && y < image.height() as i32`. -/
def in_bounds {P : Type} (img : Raster P) (x y : ℤ) : Bool :=
  decide (0 ≤ x) && decide (0 ≤ y) &&
    decide (x < u32_as_i32 img.width) && decide (y < u32_as_i32 img.height)

/-- `src/lib.rs` `get_pixel`:
`in_bounds(image, x, y).then(|| unsafe { image.unsafe_get_pixel(x as u32, y as u32) })`;
the `as u32` casts wrap modulo `2 ^ 32`. -/
def get_pixel {P : Type} (img : Raster P) (x y : ℤ) : RustResult (Option P) :=
  if in_bounds img x y then
    match uncheckedFetch img (x % 2 ^ 32).toNat (y % 2 ^ 32).toNat with
    | .ok p => .ok (some p)
    | .ub => .ub
  else .ok none

/-- `src/lib.rs` `clamp_pixel`:
`image.unsafe_get_pixel(x.clamp(0, image.width() as i32 - 1) as u32, y.clamp(0, image.height() as i32 - 1) as u32)`.
The `i32` subtraction overflows (panics) when `width as i32` is `i32::MIN`,
and `clamp(0, m)` panics when `m < 0`; both are modelled as `ub`. -/
def clamp_pixel {P : Type} (img : Raster P) (x y : ℤ) : RustResult P :=
  let wi := u32_as_i32 img.width
  let hi := u32_as_i32 img.height
  if wi = -(2 ^ 31) ∨ hi = -(2 ^ 31) then .ub
  else if wi - 1 < 0 ∨ hi - 1 < 0 then .ub
  else
    uncheckedFetch img
      ((min (max x 0) (wi - 1)) % 2 ^ 32).toNat
      ((min (max y 0) (hi - 1)) % 2 ^ 32).toNat

/-! Concrete rasters used in counterexamples and witnesses. -/

/-- A 10 by 10 raster whose pixel value records its own position. -/
def raster10 : Raster (ℕ × ℕ) := ⟨10, 10, fun x y => (x, y)⟩

/-- The 2 by 2 raster of the spec's concrete scenario, row-major values
`[32, 64, 128, 255]`. -/
def raster2 : Raster ℕ :=
  ⟨2, 2, fun x y =>
    if x = 0 ∧ y = 0 then 32
    else if x = 1 ∧ y = 0 then 64
    else if x = 0 ∧ y = 1 then 128
    else 255⟩

/-- An empty raster. -/
def raster0 : Raster ℕ := ⟨0, 0, fun _ _ => 0⟩

/-- A raster wider than `i32::MAX`. -/
def bigRaster : Raster Unit := ⟨2 ^ 31, 1, fun _ _ => ()⟩

/-! Helper lemmas shared by the claim proofs. -/

/-- Projection for the wide unsigned clamp: when the exact conversion
succeeds with a value at most `mx`, the clamp returns it unchanged. -/
theorem unsigned_wide_proj (v mx n : ℕ)
    (h : unsigned_wide_to_image_axis_index v = some n) :
    unsigned_wide_clamp_image_axis_index v mx = n := by
  unfold unsigned_wide_to_image_axis_index at h
  unfold unsigned_wide_clamp_image_axis_index
  split at h <;> simp_all

/-- Projection for the inbound signed clamp. -/
theorem signed_inbound_proj (v : ℤ) (mx n : ℕ)
    (h : signed_to_image_axis_index v = some n) (hn : n ≤ mx) :
    signed_inbound_clamp_image_axis_index v mx = n := by
  unfold signed_to_image_axis_index at h
  unfold signed_inbound_clamp_image_axis_index
  split at h <;> simp_all [u32Max]
  omega

/-- Projection for the wide signed clamp. -/
theorem signed_wide_proj (v : ℤ) (mx n : ℕ)
    (h : signed_to_image_axis_index v = some n) (hn : n ≤ mx) :
    signed_wide_clamp_image_axis_index v mx = n := by
  unfold signed_to_image_axis_index at h
  unfold signed_wide_clamp_image_axis_index
  split at h <;> simp_all [u32Max]
  omega

/-- Projection for the float clamp: a float whose exact conversion succeeds
with a value at most `mx` clamps to that same value. -/
theorem float_proj (f : Fp) (mx n : ℕ)
    (h : float_to_image_axis_index f = .ok (some n)) (hn : n ≤ mx) :
    float_clamp_image_axis_index f mx = .ok n := by
  unfold float_to_image_axis_index at h
  split at h
  case isTrue hg =>
    obtain ⟨hg1, hg2⟩ : f.is_finite = true ∧ f.is_sign_positive = true := by
      simpa using hg
    rcases hm : f.toIntUncheckedU32 with _ | m
    · rw [hm] at h; exact absurd h (by simp)
    · rw [hm] at h
      obtain rfl : m = n := by simpa using h
      simp [float_clamp_image_axis_index, hg1, hg2, hm, Nat.min_eq_left hn]
  case isFalse => exact absurd h (by simp)

/-- Axis-level projection over every supported type: if the exact
conversion returns `n ≤ mx`, clamping against `mx` returns `n`. -/
theorem clamp_of_to_some (s : Scalar) (mx n : ℕ)
    (h : s.to_image_axis_index = .ok (some n)) (hn : n ≤ mx) :
    s.clamp_image_axis_index mx = .ok n := by
  cases s with
  | f32 f => exact float_proj f mx n h hn
  | f64 f => exact float_proj f mx n h hn
  | usize v =>
    simp only [Scalar.to_image_axis_index, RustResult.ok.injEq] at h
    simp [Scalar.clamp_image_axis_index, unsigned_wide_proj v mx n h]
  | u128 v =>
    simp only [Scalar.to_image_axis_index, RustResult.ok.injEq] at h
    simp [Scalar.clamp_image_axis_index, unsigned_wide_proj v mx n h]
  | i8 v =>
    simp only [Scalar.to_image_axis_index, RustResult.ok.injEq] at h
    simp [Scalar.clamp_image_axis_index, signed_inbound_proj v mx n h hn]
  | i16 v =>
    simp only [Scalar.to_image_axis_index, RustResult.ok.injEq] at h
    simp [Scalar.clamp_image_axis_index, signed_inbound_proj v mx n h hn]
  | i32 v =>
    simp only [Scalar.to_image_axis_index, RustResult.ok.injEq] at h
    simp [Scalar.clamp_image_axis_index, signed_inbound_proj v mx n h hn]
  | isize v =>
    simp only [Scalar.to_image_axis_index, RustResult.ok.injEq] at h
    simp [Scalar.clamp_image_axis_index, signed_wide_proj v mx n h hn]
  | i64 v =>
    simp only [Scalar.to_image_axis_index, RustResult.ok.injEq] at h
    simp [Scalar.clamp_image_axis_index, signed_wide_proj v mx n h hn]
  | i128 v =>
    simp only [Scalar.to_image_axis_index, RustResult.ok.injEq] at h
    simp [Scalar.clamp_image_axis_index, signed_wide_proj v mx n h hn]
  | u8 v =>
    simp_all [Scalar.to_image_axis_index, Scalar.clamp_image_axis_index,
      unsigned_inbound_to_image_axis_index, unsigned_inbound_clamp_image_axis_index]
  | u16 v =>
    simp_all [Scalar.to_image_axis_index, Scalar.clamp_image_axis_index,
      unsigned_inbound_to_image_axis_index, unsigned_inbound_clamp_image_axis_index]
  | u32 v =>
    simp_all [Scalar.to_image_axis_index, Scalar.clamp_image_axis_index,
      u32_to_image_axis_index, u32_clamp_image_axis_index]

/-- C1: the claim says `clamp_image_axis_index(value, max)` always produces
a value in `[0, max]`, in particular for the wide unsigned types when the
value fits the addressing width but exceeds `max`.  The code violates this:
for `u128` (and `usize`), `u32::try_from(self).ok().unwrap_or(max)` returns
the value itself without `.min(max)` whenever the conversion succeeds, so
`200u128.clamp_image_axis_index(100)` evaluates to `200`, which is not in
`[0, 100]` — contradicting the trait's own documentation that the upper
bound is `max`. -/
theorem C1_unsigned_wide_clamp_at_failing_input :
    Scalar.clamp_image_axis_index (.u128 200) 100 = .ok 200 ∧ ¬(200 ≤ 100) := by
  decide

/-- C2: the claim says `get_pixel_clamped` projects any coordinate of any
supported numeric type onto the nearest edge pixel and always returns a
pixel of a non-empty raster.  On a 10 by 10 raster with the coordinate
`(200u128, 0u128)`, clamping against the edges `(9, 9)` leaves `x = 200`
unchanged (the wide unsigned clamp bug), so the unconditional unchecked
fetch runs out of range — undefined behaviour instead of the pixel at
column `width - 1 = 9`. -/
theorem C2_get_pixel_clamped_at_failing_input :
    tuple_image_coordinate_clamped (.u128 200, .u128 0) 9 9 = .ok (200, 0) ∧
      get_pixel_clamped raster10 (.u128 200) (.u128 0) = .ub := by
  decide

/-- C4: the claim says `to_image_axis_index` on a float returns `None`
(not an arbitrary or undefined result) when the truncated value cannot be
represented in the addressing width.  The code instead calls
`to_int_unchecked::<u32>()` behind the guard `is_finite && is_sign_positive`
only, so the finite positive value `4294967296.0` (which truncates to
`2 ^ 32 > u32::MAX`) reaches the call with an out-of-range value —
undefined behaviour instead of `None`. -/
theorem C4_float_to_axis_at_failing_input :
    Scalar.to_image_axis_index (.f64 (.finite false (4294967296 : ℚ))) = .ub := by
  decide

/-- C5: the claim says a finite non-negative float whose truncation exceeds
the addressing width's maximum must clamp to `max`.  The code computes
`to_int_unchecked::<u32>().min(max)`, so `5000000000.0f64` (the input of the
repository's own test, which expects `100`) reaches `to_int_unchecked` with
`5000000000 > u32::MAX` — undefined behaviour before the `.min(max)` can
saturate. -/
theorem C5_float_clamp_at_failing_input :
    Scalar.clamp_image_axis_index (.f64 (.finite false (5000000000 : ℚ))) 100 = .ub := by
  decide

/-- C9: clamping is a projection.  For every coordinate of any supported
numeric type whose exact conversion succeeds with `image_coordinate() =
Some((x, y))` and `x ≤ right`, `y ≤ bottom`, the clamped conversion
returns the same pair unchanged. -/
theorem C9_clamp_projection (a b : Scalar) (right bottom x y : ℕ)
    (h : tuple_image_coordinate (a, b) = .ok (some (x, y)))
    (hx : x ≤ right) (hy : y ≤ bottom) :
    tuple_image_coordinate_clamped (a, b) right bottom = .ok (x, y) := by
  have hab : a.to_image_axis_index = .ok (some x) ∧
      b.to_image_axis_index = .ok (some y) := by
    unfold tuple_image_coordinate at h
    rcases ha : a.to_image_axis_index with oa | _ <;>
      rcases hb : b.to_image_axis_index with ob | _ <;>
        rw [ha, hb] at h <;> unfold zipIdx at h <;> simp_all
    rcases oa with _ | xa <;> rcases ob with _ | yb <;> simp_all
  unfold tuple_image_coordinate_clamped
  rw [clamp_of_to_some a right x hab.1 hx, clamp_of_to_some b bottom y hab.2 hy]

/-- C9 witness: the projection theorem applied at the concrete coordinate
`(1i32, 0i32)` against the edges of a 2 by 2 raster. -/
theorem C9_clamp_projection_witness :
    tuple_image_coordinate_clamped (.i32 1, .i32 0) 1 1 = .ok (1, 0) :=
  C9_clamp_projection (.i32 1) (.i32 0) 1 1 1 0 (by decide) (by decide) (by decide)

/-- C10: the tuple and fixed-size-array coordinate representations are
interchangeable — on any two-element array of scalars, `image_coordinate`
and `image_coordinate_clamped` agree with the tuple implementation applied
to the same components in the same order. -/
theorem C10_tuple_array_agree (c : Fin 2 → Scalar) (right bottom : ℕ) :
    tuple_image_coordinate (c 0, c 1) = array_image_coordinate c ∧
      tuple_image_coordinate_clamped (c 0, c 1) right bottom =
        array_image_coordinate_clamped c right bottom :=
  ⟨rfl, rfl⟩

/-- Casting a `u32` value below `2 ^ 31` to `i32` is the identity. -/
theorem u32_as_i32_of_lt (w : ℕ) (h : w < 2 ^ 31) : u32_as_i32 w = w := by
  unfold u32_as_i32
  split <;> omega

/-- Reduction of `within_bounds` once the coordinate conversion is known. -/
theorem within_bounds_some {P : Type} (img : Raster P) (a b : Scalar) (x y : ℕ)
    (h : tuple_image_coordinate (a, b) = .ok (some (x, y))) :
    within_bounds img a b = .ok (gv_in_bounds img x y) := by
  unfold within_bounds
  rw [h]

/-- Reduction of `get_pixel_at` on an in-bounds converted coordinate. -/
theorem get_pixel_at_in {P : Type} (img : Raster P) (a b : Scalar) (x y : ℕ)
    (h : tuple_image_coordinate (a, b) = .ok (some (x, y)))
    (hx : x < img.width) (hy : y < img.height) :
    get_pixel_at img a b = .ok (some (img.pix x y)) := by
  unfold get_pixel_at
  rw [h]
  simp [gv_in_bounds, uncheckedFetch, hx, hy]

/-- Reduction of `get_pixel_at` on an out-of-bounds converted coordinate. -/
theorem get_pixel_at_out {P : Type} (img : Raster P) (a b : Scalar) (x y : ℕ)
    (h : tuple_image_coordinate (a, b) = .ok (some (x, y)))
    (hout : img.width ≤ x ∨ img.height ≤ y) :
    get_pixel_at img a b = .ok none := by
  unfold get_pixel_at
  rw [h]
  have hgv : gv_in_bounds img x y = false := by
    simp only [gv_in_bounds, Bool.and_eq_false_iff, decide_eq_false_iff_not]
    omega
  simp [hgv]

/-- Reduction of `get_pixel_at` on a failed coordinate conversion. -/
theorem get_pixel_at_conv_none {P : Type} (img : Raster P) (a b : Scalar)
    (h : tuple_image_coordinate (a, b) = .ok none) :
    get_pixel_at img a b = .ok none := by
  unfold get_pixel_at
  rw [h]

/-- Reduction of `get_pixel_clamped` once the edges and the clamped
coordinate are known. -/
theorem get_pixel_clamped_eq {P : Type} (img : Raster P) (a b : Scalar)
    (r bt : ℕ) (he : edges img = .ok (r, bt)) (xc yc : ℕ)
    (hc : tuple_image_coordinate_clamped (a, b) r bt = .ok (xc, yc)) :
    get_pixel_clamped img a b = uncheckedFetch img xc yc := by
  unfold get_pixel_clamped
  rw [he]
  show (match tuple_image_coordinate_clamped (a, b) r bt with
    | RustResult.ub => RustResult.ub
    | RustResult.ok (x, y) => uncheckedFetch img x y) = _
  rw [hc]

/-- Exact conversion of an `i32` value: `None` exactly on negatives. -/
theorem i32_to_image_axis_index_eq (v : ℤ) (h2 : v < 2 ^ 31) :
    Scalar.to_image_axis_index (.i32 v) =
      .ok (if 0 ≤ v then some v.toNat else none) := by
  simp only [Scalar.to_image_axis_index, signed_to_image_axis_index, u32Max]
  congr 1
  by_cases h0 : 0 ≤ v
  · rw [if_pos ⟨h0, by omega⟩, if_pos h0]
  · rw [if_neg (fun hc => h0 hc.1), if_neg h0]

/-- Conversion of an `i32` tuple coordinate. -/
theorem i32_tuple_coordinate (x y : ℤ) (hx2 : x < 2 ^ 31) (hy2 : y < 2 ^ 31) :
    tuple_image_coordinate (.i32 x, .i32 y) =
      .ok (if 0 ≤ x ∧ 0 ≤ y then some (x.toNat, y.toNat) else none) := by
  unfold tuple_image_coordinate
  show zipIdx (Scalar.to_image_axis_index (.i32 x)) (Scalar.to_image_axis_index (.i32 y)) = _
  rw [i32_to_image_axis_index_eq x hx2, i32_to_image_axis_index_eq y hy2]
  unfold zipIdx
  by_cases h0x : 0 ≤ x <;> by_cases h0y : 0 ≤ y <;>
    simp [h0x, h0y]

/-- The raw `in_bounds` agrees with the generic `within_bounds` on `i32`
coordinates whenever the raster extent fits `i32`. -/
theorem within_bounds_i32_eq {P : Type} (img : Raster P) (x y : ℤ)
    (hw : img.width ≤ 2 ^ 31 - 1) (hh : img.height ≤ 2 ^ 31 - 1)
    (hx2 : x < 2 ^ 31) (hy2 : y < 2 ^ 31) :
    within_bounds img (.i32 x) (.i32 y) = .ok (in_bounds img x y) := by
  have hwi : u32_as_i32 img.width = img.width := u32_as_i32_of_lt _ (by omega)
  have hhi : u32_as_i32 img.height = img.height := u32_as_i32_of_lt _ (by omega)
  have hcoord := i32_tuple_coordinate x y hx2 hy2
  by_cases h0x : 0 ≤ x <;> by_cases h0y : 0 ≤ y
  · rw [if_pos ⟨h0x, h0y⟩] at hcoord
    rw [within_bounds_some img _ _ _ _ hcoord]
    have e1 : decide (x < u32_as_i32 img.width) = decide (x.toNat < img.width) := by
      rw [hwi]; exact decide_eq_decide.mpr (by omega)
    have e2 : decide (y < u32_as_i32 img.height) = decide (y.toNat < img.height) := by
      rw [hhi]; exact decide_eq_decide.mpr (by omega)
    simp [gv_in_bounds, in_bounds, e1, e2, h0x, h0y]
  · rw [if_neg (by tauto)] at hcoord
    unfold within_bounds
    rw [hcoord]
    show RustResult.ok false = _
    simp [in_bounds, h0y]
  · rw [if_neg (by tauto)] at hcoord
    unfold within_bounds
    rw [hcoord]
    show RustResult.ok false = _
    simp [in_bounds, h0x]
  · rw [if_neg (by tauto)] at hcoord
    unfold within_bounds
    rw [hcoord]
    show RustResult.ok false = _
    simp [in_bounds, h0x]

/-- The raw `get_pixel` agrees with the generic `get_pixel_at` on `i32`
coordinates whenever the raster extent fits `i32`. -/
theorem get_pixel_i32_eq {P : Type} (img : Raster P) (x y : ℤ)
    (hw : img.width ≤ 2 ^ 31 - 1) (hh : img.height ≤ 2 ^ 31 - 1)
    (hx1 : -(2 ^ 31) ≤ x) (hx2 : x < 2 ^ 31)
    (hy1 : -(2 ^ 31) ≤ y) (hy2 : y < 2 ^ 31) :
    get_pixel img x y = get_pixel_at img (.i32 x) (.i32 y) := by
  have hwi : u32_as_i32 img.width = img.width := u32_as_i32_of_lt _ (by omega)
  have hhi : u32_as_i32 img.height = img.height := u32_as_i32_of_lt _ (by omega)
  have hcoord := i32_tuple_coordinate x y hx2 hy2
  by_cases h0x : 0 ≤ x <;> by_cases h0y : 0 ≤ y
  · rw [if_pos ⟨h0x, h0y⟩] at hcoord
    have hmx : (x % 2 ^ 32).toNat = x.toNat := by omega
    have hmy : (y % 2 ^ 32).toNat = y.toNat := by omega
    by_cases hbx : x.toNat < img.width <;> by_cases hby : y.toNat < img.height
    · rw [get_pixel_at_in img _ _ _ _ hcoord hbx hby]
      have hib : in_bounds img x y = true := by
        simp only [in_bounds, hwi, hhi, Bool.and_eq_true, decide_eq_true_eq]
        omega
      unfold get_pixel
      rw [if_pos hib, hmx, hmy]
      unfold uncheckedFetch
      rw [if_pos ⟨hbx, hby⟩]
    · rw [get_pixel_at_out img _ _ _ _ hcoord (by omega)]
      have hib : in_bounds img x y = false := by
        simp only [in_bounds, hwi, hhi, Bool.and_eq_false_iff, decide_eq_false_iff_not]
        omega
      unfold get_pixel
      rw [if_neg (by simp [hib])]
    · rw [get_pixel_at_out img _ _ _ _ hcoord (by omega)]
      have hib : in_bounds img x y = false := by
        simp only [in_bounds, hwi, hhi, Bool.and_eq_false_iff, decide_eq_false_iff_not]
        omega
      unfold get_pixel
      rw [if_neg (by simp [hib])]
    · rw [get_pixel_at_out img _ _ _ _ hcoord (by omega)]
      have hib : in_bounds img x y = false := by
        simp only [in_bounds, hwi, hhi, Bool.and_eq_false_iff, decide_eq_false_iff_not]
        omega
      unfold get_pixel
      rw [if_neg (by simp [hib])]
  · rw [if_neg (by tauto)] at hcoord
    rw [get_pixel_at_conv_none img _ _ hcoord]
    have hib : in_bounds img x y = false := by
      simp only [in_bounds, Bool.and_eq_false_iff, decide_eq_false_iff_not]
      tauto
    unfold get_pixel
    rw [if_neg (by simp [hib])]
  · rw [if_neg (by tauto)] at hcoord
    rw [get_pixel_at_conv_none img _ _ hcoord]
    have hib : in_bounds img x y = false := by
      simp only [in_bounds, Bool.and_eq_false_iff, decide_eq_false_iff_not]
      tauto
    unfold get_pixel
    rw [if_neg (by simp [hib])]
  · rw [if_neg (by tauto)] at hcoord
    rw [get_pixel_at_conv_none img _ _ hcoord]
    have hib : in_bounds img x y = false := by
      simp only [in_bounds, Bool.and_eq_false_iff, decide_eq_false_iff_not]
      tauto
    unfold get_pixel
    rw [if_neg (by simp [hib])]

/-- The raw `clamp_pixel` agrees with the generic `get_pixel_clamped` on
`i32` coordinates over a non-empty raster whose extent fits `i32`. -/
theorem clamp_pixel_i32_eq {P : Type} (img : Raster P) (x y : ℤ)
    (hw : img.width ≤ 2 ^ 31 - 1) (hh : img.height ≤ 2 ^ 31 - 1)
    (hx1 : -(2 ^ 31) ≤ x) (hx2 : x < 2 ^ 31)
    (hy1 : -(2 ^ 31) ≤ y) (hy2 : y < 2 ^ 31)
    (h1w : 1 ≤ img.width) (h1h : 1 ≤ img.height) :
    clamp_pixel img x y = get_pixel_clamped img (.i32 x) (.i32 y) := by
  have hwi : u32_as_i32 img.width = img.width := u32_as_i32_of_lt _ (by omega)
  have hhi : u32_as_i32 img.height = img.height := u32_as_i32_of_lt _ (by omega)
  have he : edges img = .ok (img.width - 1, img.height - 1) := by
    unfold edges
    rw [if_neg (by omega)]
  have hcl : tuple_image_coordinate_clamped (.i32 x, .i32 y)
      (img.width - 1) (img.height - 1) =
      .ok (min ((max x 0).toNat % 2 ^ 32) (img.width - 1),
        min ((max y 0).toNat % 2 ^ 32) (img.height - 1)) := rfl
  rw [get_pixel_clamped_eq img _ _ _ _ he _ _ hcl]
  simp only [clamp_pixel, hwi, hhi]
  rw [if_neg (by omega), if_neg (by omega)]
  have ex : ((min (max x 0) ((img.width : ℤ) - 1)) % 2 ^ 32).toNat =
      min ((max x 0).toNat % 2 ^ 32) (img.width - 1) := by omega
  have ey : ((min (max y 0) ((img.height : ℤ) - 1)) % 2 ^ 32).toNat =
      min ((max y 0).toNat % 2 ^ 32) (img.height - 1) := by omega
  rw [ex, ey]

/-- C3 counterexample: the claim asserts the raw convenience functions agree
with the generic path even when the raster width exceeds `i32::MAX`.  On a
raster of width `2 ^ 31` the raw `in_bounds` compares against
`width as i32 = i32::MIN` (the cast wraps), so it rejects `(0, 0)` while
the generic `within_bounds` accepts it. -/
theorem C3_counterexample :
    in_bounds bigRaster 0 0 = false ∧
      within_bounds bigRaster (.i32 0) (.i32 0) = .ok true := by
  decide

/-- C3 (amended): for rasters whose width and height are at most
`i32::MAX`, the raw signed-32-bit convenience functions agree with the
generic path on every `i32` coordinate: `in_bounds` with `within_bounds`,
`get_pixel` with `get_pixel_at`, and, for a non-empty raster, `clamp_pixel`
with `get_pixel_clamped`. -/
theorem C3_raw_generic_equiv {P : Type} (img : Raster P) (x y : ℤ)
    (hw : img.width ≤ 2 ^ 31 - 1) (hh : img.height ≤ 2 ^ 31 - 1)
    (hx1 : -(2 ^ 31) ≤ x) (hx2 : x < 2 ^ 31)
    (hy1 : -(2 ^ 31) ≤ y) (hy2 : y < 2 ^ 31) :
    within_bounds img (.i32 x) (.i32 y) = .ok (in_bounds img x y) ∧
    get_pixel img x y = get_pixel_at img (.i32 x) (.i32 y) ∧
    (1 ≤ img.width → 1 ≤ img.height →
      clamp_pixel img x y = get_pixel_clamped img (.i32 x) (.i32 y)) :=
  ⟨within_bounds_i32_eq img x y hw hh hx2 hy2,
   get_pixel_i32_eq img x y hw hh hx1 hx2 hy1 hy2,
   fun h1w h1h => clamp_pixel_i32_eq img x y hw hh hx1 hx2 hy1 hy2 h1w h1h⟩

/-- C3 witness: the three equivalences at the concrete coordinate
`(-1, 5)` on the 2 by 2 raster. -/
theorem C3_raw_generic_equiv_witness :
    within_bounds raster2 (.i32 (-1)) (.i32 5) = .ok (in_bounds raster2 (-1) 5) ∧
      get_pixel raster2 (-1) 5 = get_pixel_at raster2 (.i32 (-1)) (.i32 5) ∧
      clamp_pixel raster2 (-1) 5 = get_pixel_clamped raster2 (.i32 (-1)) (.i32 5) := by
  obtain ⟨h1, h2, h3⟩ := C3_raw_generic_equiv raster2 (-1) 5 (by decide) (by decide)
    (by decide) (by decide) (by decide) (by decide)
  exact ⟨h1, h2, h3 (by decide) (by decide)⟩

/-- C6: for every raster and every coordinate whose conversion executes
normally, `get_pixel_at` returns `None` exactly when the exact conversion
fails or the converted `(x, y)` is out of bounds; otherwise it returns
`Some` of exactly the pixel the raster's direct fetch yields at the
validated `(x, y)` — in particular, for in-range integer coordinates it
equals the direct fetch. -/
theorem C6_get_pixel_at_spec {P : Type} (img : Raster P) (a b : Scalar)
    (r : Option (ℕ × ℕ)) (h : tuple_image_coordinate (a, b) = .ok r) :
    (get_pixel_at img a b = .ok none ↔
      r = none ∨ ∃ x y, r = some (x, y) ∧ (img.width ≤ x ∨ img.height ≤ y)) ∧
    (∀ x y, r = some (x, y) → x < img.width → y < img.height →
      get_pixel_at img a b = .ok (some (img.pix x y))) := by
  unfold get_pixel_at
  rw [h]
  rcases r with _ | ⟨x, y⟩
  · simp
  · constructor
    · constructor
      · intro hnone
        by_cases hx : x < img.width
        · by_cases hy : y < img.height
          · exfalso
            simp [gv_in_bounds, uncheckedFetch, hx, hy] at hnone
          · exact Or.inr ⟨x, y, rfl, Or.inr (Nat.le_of_not_lt hy)⟩
        · exact Or.inr ⟨x, y, rfl, Or.inl (Nat.le_of_not_lt hx)⟩
      · rintro (hc | ⟨x', y', heq, hout⟩)
        · exact absurd hc (by simp)
        · obtain ⟨rfl, rfl⟩ : x = x' ∧ y = y' := by simpa using heq
          have hgv : gv_in_bounds img x y = false := by
            simp only [gv_in_bounds, Bool.and_eq_false_imp, decide_eq_true_eq,
              Bool.and_eq_false_iff, decide_eq_false_iff_not]
            omega
          simp [hgv]
    · rintro x' y' heq hx hy
      obtain ⟨rfl, rfl⟩ : x = x' ∧ y = y' := by simpa using heq
      simp [gv_in_bounds, uncheckedFetch, hx, hy]

/-- C6 witness: on the 2 by 2 raster, `get_pixel_at((0i32, 0i32))` is `Some`
of the direct fetch at `(0, 0)`. -/
theorem C6_get_pixel_at_spec_witness :
    get_pixel_at raster2 (.i32 0) (.i32 0) = .ok (some (raster2.pix 0 0)) :=
  (C6_get_pixel_at_spec raster2 (.i32 0) (.i32 0) (some (0, 0)) (by decide)).2
    0 0 rfl (by decide) (by decide)

/-- C7: for every raster and every coordinate whose conversion executes
normally, `within_bounds` is `true` exactly when `image_coordinate()`
yields `Some((x, y))` with `x < width` and `y < height`; consequently on an
empty raster `within_bounds` is `false` and `get_pixel_at` returns `None`
for every such coordinate. -/
theorem C7_within_bounds_spec {P : Type} (img : Raster P) (a b : Scalar)
    (r : Option (ℕ × ℕ)) (h : tuple_image_coordinate (a, b) = .ok r) :
    (within_bounds img a b = .ok true ↔
      ∃ x y, r = some (x, y) ∧ x < img.width ∧ y < img.height) ∧
    (img.width = 0 ∨ img.height = 0 →
      within_bounds img a b = .ok false ∧ get_pixel_at img a b = .ok none) := by
  unfold within_bounds get_pixel_at
  rw [h]
  rcases r with _ | ⟨x, y⟩
  · simp
  · constructor
    · simp only [gv_in_bounds, RustResult.ok.injEq, Bool.and_eq_true, decide_eq_true_eq]
      constructor
      · rintro ⟨hx, hy⟩; exact ⟨x, y, rfl, hx, hy⟩
      · rintro ⟨x', y', heq, hx, hy⟩
        obtain ⟨rfl, rfl⟩ : x = x' ∧ y = y' := by simpa using heq
        exact ⟨hx, hy⟩
    · rintro (h0 | h0) <;> simp [gv_in_bounds, uncheckedFetch, h0]

/-- C7 witness: the empty-raster consequence at the coordinate
`(0i32, 0i32)`. -/
theorem C7_within_bounds_spec_witness :
    within_bounds raster0 (.i32 0) (.i32 0) = .ok false ∧
      get_pixel_at raster0 (.i32 0) (.i32 0) = .ok none :=
  (C7_within_bounds_spec raster0 (.i32 0) (.i32 0) (some (0, 0)) (by decide)).2
    (Or.inl (by decide))

/-- C8: for every signed integer type, `to_image_axis_index` returns `None`
exactly when the value is negative or exceeds `u32::MAX`, and otherwise
`Some` of the widened value; `clamp_image_axis_index(max)` returns `0` on
negatives, `max` when the value exceeds `u32::MAX`, and `min(value, max)`
otherwise — for the narrow signed types (`i8`, `i16`, `i32`) and the wide
ones (`isize`, `i64`, `i128`) alike. -/
theorem C8_signed_conversion_spec (s : Scalar) (v : ℤ) (mx : ℕ)
    (hs : s.signedVal = some v) (hwf : s.wf) (hmx : mx ≤ u32Max) :
    s.to_image_axis_index =
      .ok (if 0 ≤ v ∧ v ≤ (u32Max : ℤ) then some v.toNat else none) ∧
    s.clamp_image_axis_index mx =
      .ok (if v < 0 then 0 else if (u32Max : ℤ) < v then mx else min v.toNat mx) := by
  cases s with
  | i8 w =>
    obtain rfl : w = v := by simpa [Scalar.signedVal] using hs
    simp only [Scalar.wf] at hwf
    refine ⟨rfl, ?_⟩
    simp only [Scalar.clamp_image_axis_index, RustResult.ok.injEq,
      signed_inbound_clamp_image_axis_index, u32Max] at *
    split_ifs <;> omega
  | i16 w =>
    obtain rfl : w = v := by simpa [Scalar.signedVal] using hs
    simp only [Scalar.wf] at hwf
    refine ⟨rfl, ?_⟩
    simp only [Scalar.clamp_image_axis_index, RustResult.ok.injEq,
      signed_inbound_clamp_image_axis_index, u32Max] at *
    split_ifs <;> omega
  | i32 w =>
    obtain rfl : w = v := by simpa [Scalar.signedVal] using hs
    simp only [Scalar.wf] at hwf
    refine ⟨rfl, ?_⟩
    simp only [Scalar.clamp_image_axis_index, RustResult.ok.injEq,
      signed_inbound_clamp_image_axis_index, u32Max] at *
    split_ifs <;> omega
  | isize w =>
    obtain rfl : w = v := by simpa [Scalar.signedVal] using hs
    simp only [Scalar.wf] at hwf
    refine ⟨rfl, ?_⟩
    simp only [Scalar.clamp_image_axis_index, RustResult.ok.injEq,
      signed_wide_clamp_image_axis_index, u32Max] at *
    split_ifs <;> omega
  | i64 w =>
    obtain rfl : w = v := by simpa [Scalar.signedVal] using hs
    simp only [Scalar.wf] at hwf
    refine ⟨rfl, ?_⟩
    simp only [Scalar.clamp_image_axis_index, RustResult.ok.injEq,
      signed_wide_clamp_image_axis_index, u32Max] at *
    split_ifs <;> omega
  | i128 w =>
    obtain rfl : w = v := by simpa [Scalar.signedVal] using hs
    simp only [Scalar.wf] at hwf
    refine ⟨rfl, ?_⟩
    simp only [Scalar.clamp_image_axis_index, RustResult.ok.injEq,
      signed_wide_clamp_image_axis_index, u32Max] at *
    split_ifs <;> omega
  | u8 w => simp [Scalar.signedVal] at hs
  | u16 w => simp [Scalar.signedVal] at hs
  | u32 w => simp [Scalar.signedVal] at hs
  | usize w => simp [Scalar.signedVal] at hs
  | u128 w => simp [Scalar.signedVal] at hs
  | f32 w => simp [Scalar.signedVal] at hs
  | f64 w => simp [Scalar.signedVal] at hs

/-- C8 witness: the `i64` value `5000000000` exceeds `u32::MAX`, so the
exact conversion fails and the clamp saturates to `max = 100`. -/
theorem C8_signed_conversion_spec_witness :
    Scalar.to_image_axis_index (.i64 5000000000) = .ok none ∧
      Scalar.clamp_image_axis_index (.i64 5000000000) 100 = .ok 100 := by
  obtain ⟨h1, h2⟩ := C8_signed_conversion_spec (.i64 5000000000) 5000000000 100
    (by decide) ⟨by decide, by decide⟩ (by decide)
  constructor
  · rw [h1]; decide
  · rw [h2]; decide
